import Mathlib

/-!
Verification development for the terminal-control-panel repository.

This file gives a shallow embedding of the core state and operations of the
repository's Python modules:

* `modules/tmux_manager.py`   — window-name canonicalization and signal routing,
* `modules/terminal_manager.py` — the direct-PTY variant of name canonicalization,
* `modules/pty_manager.py`    — the PTY bridge: escape-sequence filtering, the
  connection table with reference-counted subscribers and delayed cleanup,
* `modules/x11_manager.py`    — the virtual display manager: fixed display/port
  tables, the three-stage pipeline (Xvfb, x11vnc, websockify), liveness probing,
* `modules/routes.py`         — the `connect_panel` route built on top of it.

Python strings are embedded as `List Char`; Python dicts keyed by a name or a
display number are embedded as association lists with the dict operations
`alookup` (membership / `[]`), `aset` (`d[k] = v`: replace in place or append)
and `adel` (`del d[k]`).  OS-level effects (which binaries exist, which ports
bind, which processes are alive, what a child writes to stderr) are captured in
explicit environment records; process launches and signals are recorded in an
action log so that theorems can speak about "no process was started" or
"stages were torn down in reverse order".
-/

set_option autoImplicit false

/-- Association-list lookup, embedding Python dict membership and indexing. -/
def alookup {K V : Type} [DecidableEq K] (l : List (K × V)) (k : K) : Option V :=
  match l with
  | [] => none
  | (k', v) :: t => if k' = k then some v else alookup t k

/-- Association-list update, embedding Python dict assignment `d[k] = v`:
the existing binding is replaced in place, a new key is appended at the end
(matching dict insertion order). -/
def aset {K V : Type} [DecidableEq K] (l : List (K × V)) (k : K) (v : V) : List (K × V) :=
  match l with
  | [] => [(k, v)]
  | (k', v') :: t => if k' = k then (k, v) :: t else (k', v') :: aset t k v

/-- Association-list deletion, embedding Python `del d[k]`. -/
def adel {K V : Type} [DecidableEq K] (l : List (K × V)) (k : K) : List (K × V) :=
  l.filter (fun p => p.1 ≠ k)

namespace TmuxManager

/-- `TmuxManager.get_full_name` (tmux_manager.py): return the window name with
the configured session prefix, leaving names that already carry it unchanged.
`pfx` embeds `self.config.session_prefix`. -/
def get_full_name (pfx name : List Char) : List Char :=
  if pfx.isPrefixOf name then name else pfx ++ name

/-- Environment for `TmuxManager.send_signal`: the outcome of the
`display-message -p pane_pid` query (`none` embeds a failed command or an
unparsable pid), the `pgrep -P` child-process table, and whether `os.kill`
on a given pid succeeds. -/
structure SigEnv where
  pane_pid : Option Nat
  children : Nat → List Nat
  kill_ok : Nat → Bool

/-- `TmuxManager.send_signal` (tmux_manager.py): query the pane's foreground
process id; if it has children, signal every child (kill failures ignored) and
report success; otherwise signal the pane process itself, reporting failure if
that kill raises.  Returns the reported Bool together with the list of
(pid, signal) kill attempts made.  The Python body wraps everything in
try/except, so the operation never raises; the embedding is a total function. -/
def send_signal (env : SigEnv) (sig : Nat) : Bool × List (Nat × Nat) :=
  match env.pane_pid with
  | none => (false, [])
  | some p =>
    let cs := env.children p
    if cs ≠ [] then (true, cs.map (fun c => (c, sig)))
    else if env.kill_ok p then (true, [(p, sig)]) else (false, [(p, sig)])

end TmuxManager

namespace TerminalManager

/-- `TerminalManager.get_full_name` (terminal_manager.py): the direct-PTY
variant of name canonicalization, textually the same rule as the tmux one. -/
def get_full_name (pfx name : List Char) : List Char :=
  if pfx.isPrefixOf name then name else pfx ++ name

end TerminalManager

namespace PtyManager

/-- Strip a literal character sequence from the front of the input, returning
the remainder; building block for the structural embedding of the regex
patterns `OSC_PATTERN` and `DCS_PATTERN` of pty_manager.py. -/
def stripLit (lit : List Char) (l : List Char) : Option (List Char) :=
  if lit.isPrefixOf l then some (l.drop lit.length) else none

/-- Characters allowed inside OSC parameters: the regex class `[^\x07\x1b]`. -/
def isOrd (c : Char) : Bool := !(c == '\x07' || c == '\x1b')

/-- The OSC terminator `(?:\x07|\x1b\\)`: BEL, or ESC backslash (ST). -/
def matchTerm (l : List Char) : Option (List Char) :=
  match stripLit ['\x07'] l with
  | some r => some r
  | none =>
    match stripLit ['\x1b', '\\'] l with
    | some r => some r
    | none => none

/-- The tail `;[^\x07\x1b]*(?:\x07|\x1b\\)` of `OSC_PATTERN`: a semicolon, a
greedy run of parameter characters, then the terminator.  Because the
parameter class excludes both terminator start characters, the greedy run is
the maximal `isOrd` span and no backtracking arises. -/
def matchSemiParamsTerm (l : List Char) : Option (List Char) :=
  match stripLit [';'] l with
  | some r => matchTerm (r.dropWhile isOrd)
  | none => none

/-- One literal command-code alternative of `OSC_PATTERN` followed by the
`;params terminator` tail; `none` makes the alternation fall through to the
next alternative exactly as the backtracking regex engine does. -/
def tryCode (lit : List Char) (l : List Char) : Option (List Char) :=
  match stripLit lit l with
  | some r => matchSemiParamsTerm r
  | none => none

/-- The alternative `4;\d+` followed by the common tail: at least one digit,
taken greedily (the following `;` is not a digit, so maximal munch is exact). -/
def tryPalette (l : List Char) : Option (List Char) :=
  match stripLit ['4', ';'] l with
  | some r =>
    if r.takeWhile Char.isDigit = [] then none
    else matchSemiParamsTerm (r.dropWhile Char.isDigit)
  | none => none

/-- The alternative `52;[^\x07\x1b]*` followed by the common tail.  After
`52;` the regex needs `A;B terminator` with `A`, `B` drawn from the parameter
class; backtracking succeeds exactly when the maximal parameter span before
the terminator contains a `;` — the overall consumed extent is the same. -/
def tryClipboard (l : List Char) : Option (List Char) :=
  match stripLit ['5', '2', ';'] l with
  | some r =>
    if ';' ∈ r.takeWhile isOrd then matchTerm (r.dropWhile isOrd) else none
  | none => none

/-- The body of `OSC_PATTERN` after `ESC ]`: the ordered alternation
`10|11|12|4;\d+|104|110|111|112|52;[^\x07\x1b]*` followed by the common
`;params terminator` tail (folded into each alternative, since the regex
engine backtracks over the alternation when the tail fails). -/
def matchOscBody (l : List Char) : Option (List Char) :=
  tryCode ['1', '0'] l <|> tryCode ['1', '1'] l <|> tryCode ['1', '2'] l <|>
  tryPalette l <|>
  tryCode ['1', '0', '4'] l <|> tryCode ['1', '1', '0'] l <|>
  tryCode ['1', '1', '1'] l <|> tryCode ['1', '1', '2'] l <|>
  tryClipboard l

/-- A match of `OSC_PATTERN` at the head of the input, returning the suffix
after the matched sequence. -/
def matchOsc (l : List Char) : Option (List Char) :=
  match stripLit ['\x1b', ']'] l with
  | some r => matchOscBody r
  | none => none

/-- A match of `DCS_PATTERN` (`\x1bP[^\x1b]*\x1b\\`) at the head of the input:
ESC `P`, a greedy run of non-ESC characters (deterministic, since the class
excludes the terminator's first character), then ESC backslash. -/
def matchDcs (l : List Char) : Option (List Char) :=
  match stripLit ['\x1b', 'P'] l with
  | some r => stripLit ['\x1b', '\\'] (r.dropWhile (fun c => !(c == '\x1b')))
  | none => none

/-- `OSC_PATTERN.sub('', data)`, fuel-indexed: scan left to right, delete each
leftmost non-overlapping match, keep every other character.  One unit of fuel
is spent per input position; since every match consumes at least one
character (proved below as `matchOsc_length`), fuel equal to the input length
is always enough, and `subOscAux_fuel` shows the result is fuel-independent
from that point on. -/
def subOscAux (fuel : Nat) (l : List Char) : List Char :=
  match fuel, l with
  | _, [] => []
  | 0, l => l
  | fuel + 1, c :: rest =>
    match matchOsc (c :: rest) with
    | some r => subOscAux fuel r
    | none => c :: subOscAux fuel rest

/-- `OSC_PATTERN.sub('', data)`. -/
def subOsc (l : List Char) : List Char := subOscAux l.length l

/-- `DCS_PATTERN.sub('', data)`, fuel-indexed in the same way. -/
def subDcsAux (fuel : Nat) (l : List Char) : List Char :=
  match fuel, l with
  | _, [] => []
  | 0, l => l
  | fuel + 1, c :: rest =>
    match matchDcs (c :: rest) with
    | some r => subDcsAux fuel r
    | none => c :: subDcsAux fuel rest

/-- `DCS_PATTERN.sub('', data)`. -/
def subDcs (l : List Char) : List Char := subDcsAux l.length l

/-- `PtyManager._filter_escape_sequences` (pty_manager.py): first substitute
away all OSC matches, then all DCS matches. -/
def filter_escape_sequences (data : List Char) : List Char :=
  subDcs (subOsc data)

/-- Whether `OSC_PATTERN` matches anywhere in the input. -/
def hasOscMatch : List Char → Bool
  | [] => false
  | c :: rest => (matchOsc (c :: rest)).isSome || hasOscMatch rest

/-- Whether `DCS_PATTERN` matches anywhere in the input. -/
def hasDcsMatch : List Char → Bool
  | [] => false
  | c :: rest => (matchDcs (c :: rest)).isSome || hasDcsMatch rest

/-- Bridge state for one session (`self.connections[full_name]` in
pty_manager.py): master fd, attach-process pid, subscriber set (`clients`,
a set of socket ids embedded as a duplicate-free list), and the
`reader_stopped` flag set by the reader thread on EOF/error.  The
`reader_thread`, `stop_event` and `socket` entries carry no state relevant
to the claims (the stop event's observable effect is connection removal). -/
structure PConn where
  master_fd : Nat
  pid : Nat
  clients : List Nat
  reader_stopped : Bool
deriving DecidableEq, Repr

/-- State of a `PtyManager`: the connection table, a fresh-id counter backing
`pty.fork` (fd and pid allocation), the list of pids spawned so far, and the
multiset of scheduled `delayed_cleanup` threads (one entry per thread started
by `remove_client`, keyed by the session's full name). -/
structure PtyState where
  connections : List (List Char × PConn)
  nextId : Nat
  spawned : List Nat
  pending : List (List Char)
deriving DecidableEq, Repr

/-- Environment for the PTY manager: which windows exist in the underlying
tmux server (`tmux_mgr.session_exists`). -/
structure PtyEnv where
  sessions : List (List Char)

/-- Python set `add`. -/
def addClient (clients : List Nat) (sid : Nat) : List Nat :=
  if sid ∈ clients then clients else clients ++ [sid]

/-- `PtyManager.cleanup` (pty_manager.py): stop the reader, close the fd,
SIGTERM the attach process, and delete the table entry.  The OS-side effects
act on resources outside the table; the state effect is the deletion. -/
def cleanup (pfx : List Char) (st : PtyState) (name : List Char) : PtyState :=
  let full := TmuxManager.get_full_name pfx name
  match alookup st.connections full with
  | none => st
  | some _ => { st with connections := adel st.connections full }

/-- The creation tail of `PtyManager.get_or_create`: verify the session exists
in tmux, then `_spawn_pty` (fresh master fd and pid), start one reader, and
store the new connection with `{sid}` as its subscriber set. -/
def spawn_connection (env : PtyEnv) (st : PtyState) (full : List Char) (sid : Nat) :
    Option PConn × PtyState :=
  if full ∈ env.sessions then
    let conn : PConn :=
      { master_fd := st.nextId, pid := st.nextId + 1, clients := [sid], reader_stopped := false }
    (some conn,
     { st with connections := aset st.connections full conn,
               nextId := st.nextId + 2,
               spawned := st.spawned ++ [st.nextId + 1] })
  else (none, st)

/-- `PtyManager.get_or_create` (pty_manager.py): if a connection exists, add
the subscriber and return it, unless its reader has stopped — then tear it
down first and fall through to creation; with no usable connection, create
one only if the tmux window exists, else return none. -/
def get_or_create (env : PtyEnv) (pfx : List Char) (st : PtyState)
    (name : List Char) (sid : Nat) : Option PConn × PtyState :=
  let full := TmuxManager.get_full_name pfx name
  match alookup st.connections full with
  | some conn =>
    let conn' := { conn with clients := addClient conn.clients sid }
    let st' := { st with connections := aset st.connections full conn' }
    if conn.reader_stopped then
      spawn_connection env (cleanup pfx st' full) full sid
    else
      (some conn', st')
  | none => spawn_connection env st full sid

/-- `PtyManager.remove_client` (pty_manager.py): discard the subscriber; when
the subscriber set becomes empty, start a `delayed_cleanup` thread (recorded
in `pending`) that will fire after the fixed 5-second grace window. -/
def remove_client (pfx : List Char) (st : PtyState) (name : List Char) (sid : Nat) : PtyState :=
  let full := TmuxManager.get_full_name pfx name
  match alookup st.connections full with
  | none => st
  | some conn =>
    let conn' := { conn with clients := conn.clients.erase sid }
    let st' := { st with connections := aset st.connections full conn' }
    if conn'.clients = [] then { st' with pending := st'.pending ++ [full] } else st'

/-- The body of one `delayed_cleanup` thread after its 5-second sleep
(pty_manager.py, `remove_client`): consume the pending timer and clean the
connection up only if it still exists and its subscriber set is still empty.
Nothing cancels a pending timer; an arriving subscriber merely falsifies the
recheck. -/
def fire_delayed_cleanup (pfx : List Char) (st : PtyState) (full : List Char) : PtyState :=
  if full ∈ st.pending then
    let st' := { st with pending := st.pending.erase full }
    match alookup st'.connections full with
    | some conn => if conn.clients = [] then cleanup pfx st' full else st'
    | none => st'
  else st

/-- Events on a `PtyManager`: a client subscribing (`get_or_create`), a client
releasing (`remove_client`), and a previously scheduled delayed-cleanup timer
firing after its grace window. -/
inductive PEvent where
  | acquire (name : List Char) (sid : Nat)
  | release (name : List Char) (sid : Nat)
  | fire (full : List Char)
deriving DecidableEq, Repr

/-- One step of the PTY manager's event semantics. -/
def pstep (env : PtyEnv) (pfx : List Char) (st : PtyState) : PEvent → PtyState
  | .acquire name sid => (get_or_create env pfx st name sid).2
  | .release name sid => remove_client pfx st name sid
  | .fire full => fire_delayed_cleanup pfx st full

/-- Run a trace of events. -/
def prun (env : PtyEnv) (pfx : List Char) (st : PtyState) (tr : List PEvent) : PtyState :=
  tr.foldl (pstep env pfx) st

end PtyManager

namespace X11Manager

/-- The three pipeline stages of a display slot. -/
inductive Stage where
  | xvfb
  | x11vnc
  | websockify
deriving DecidableEq, Repr

/-- Observable process actions of the display manager: a `subprocess.Popen`
launch, a SIGTERM (`terminate` / first phase of `stop_display`), and a
SIGKILL (second phase of `stop_display`). -/
inductive X11Action where
  | popen (stage : Stage) (pid : Nat)
  | term (pid : Nat)
  | kill (pid : Nat)
deriving DecidableEq, Repr

/-- One tracked slot (`self.displays[display_num]` in x11_manager.py). -/
structure DisplayEntry where
  display : String
  display_num : Nat
  panel_index : Option Nat
  xvfb_pid : Nat
  vnc_pid : Nat
  vnc_port : Nat
  ws_pid : Nat
  ws_port : Nat
  width : Nat
  height : Nat
  sessions : List String
deriving DecidableEq, Repr

/-- The info dict returned to callers by `start_display` / `get_display` /
`list_displays`. -/
structure SlotInfo where
  display : String
  display_num : Nat
  panel_index : Option Nat
  ws_port : Nat
  width : Nat
  height : Nat
deriving DecidableEq, Repr

/-- State of an `X11Manager`: the slot table, a fresh-pid counter backing
`subprocess.Popen`, and the log of launch/terminate actions performed. -/
structure X11State where
  displays : List (Nat × DisplayEntry)
  nextPid : Nat
  log : List X11Action
deriving DecidableEq, Repr

/-- OS environment of the display manager: `shutil.which` for each required
binary, port bind tests, the `/tmp/.X<n>-lock` / socket availability check,
whether each launched stage survives its settle window (`poll() is None`),
its captured stderr when it does not, and `os.kill(pid, 0)` liveness. -/
structure XEnv where
  which : String → Bool
  portFree : Nat → Bool
  displayFree : Nat → Bool
  survives : Stage → Bool
  stderrOf : Stage → String
  alive : Nat → Bool

/-- `FIXED_DISPLAYS` (x11_manager.py): GUI panel index to display number. -/
def FIXED_DISPLAYS (panel : Nat) : Option Nat :=
  if panel = 0 then some 100 else if panel = 1 then some 101 else
  if panel = 2 then some 102 else none

/-- `FIXED_VNC_PORTS`: display number to remote-frame-buffer port.  The dict
has keys 100..102 only; the total function's value elsewhere is never used. -/
def FIXED_VNC_PORTS (n : Nat) : Nat :=
  if n = 100 then 5900 else if n = 101 then 5901 else 5902

/-- `FIXED_WS_PORTS`: display number to websocket port. -/
def FIXED_WS_PORTS (n : Nat) : Nat :=
  if n = 100 then 6100 else if n = 101 then 6101 else 6102

/-- `X11Manager.get_panel_for_display`. -/
def get_panel_for_display (n : Nat) : Option Nat :=
  if n = 100 then some 0 else if n = 101 then some 1 else
  if n = 102 then some 2 else none

/-- `X11Manager.get_display_for_panel`. -/
def get_display_for_panel (panel : Nat) : Option Nat :=
  FIXED_DISPLAYS panel

/-- The info dict built from a slot (same shape in `start_display`,
`get_display` and `list_displays`, with the display number and panel index
recomputed from the key). -/
def slotInfoAt (n : Nat) (e : DisplayEntry) : SlotInfo :=
  { display := e.display, display_num := n, panel_index := get_panel_for_display n,
    ws_port := e.ws_port, width := e.width, height := e.height }

/-- The `required` binary list of `check_dependencies`. -/
def requiredDeps : List String := ["Xvfb", "x11vnc", "websockify"]

/-- `X11Manager.check_dependencies` (x11_manager.py): the sublist of required
binaries that `shutil.which` cannot find. -/
def check_dependencies (env : XEnv) : List String :=
  requiredDeps.filter (fun c => !env.which c)

/-- The error message produced when dependencies are missing. -/
def missingMsg (missing : List String) : String :=
  "Missing dependencies: " ++ String.intercalate ", " missing ++
  ". Install with: sudo apt install xvfb x11vnc websockify"

/-- Display-number resolution at the top of `start_display`: an explicit
display number must be one of the fixed three; otherwise a panel index is
mapped through `FIXED_DISPLAYS`; otherwise it is an error. -/
def resolveDisplayNum (display_num panel_index : Option Nat) : Except String Nat :=
  match display_num with
  | some n =>
    if n = 100 ∨ n = 101 ∨ n = 102 then .ok n
    else .error ("Invalid display number " ++ toString n ++ ". Must be 100, 101, or 102")
  | none =>
    match panel_index with
    | some p =>
      match FIXED_DISPLAYS p with
      | some n => .ok n
      | none => .error ("Invalid panel index " ++ toString p ++ ". Must be 0, 1, or 2")
    | none => .error "Must specify display_num or panel_index"

/-- Result of `start_display`: the info dict or an error message. -/
structure StartResult where
  info : Option SlotInfo
  error : Option String
deriving DecidableEq, Repr

/-- `X11Manager.start_display` (x11_manager.py): check dependencies, resolve
the display number, return the tracked slot's info idempotently if present,
verify both ports and the OS display resource are free, then launch Xvfb,
x11vnc and websockify in order, each with a settle check; a stage that exits
during its settle window aborts the call, terminating the previously started
stages in reverse order, and no slot is recorded. -/
def start_display (env : XEnv) (st : X11State)
    (display_num panel_index : Option Nat) (width height depth : Nat) :
    StartResult × X11State :=
  let missing := check_dependencies env
  if missing ≠ [] then (⟨none, some (missingMsg missing)⟩, st)
  else
    match resolveDisplayNum display_num panel_index with
    | .error e => (⟨none, some e⟩, st)
    | .ok n =>
      match alookup st.displays n with
      | some e => (⟨some (slotInfoAt n e), none⟩, st)
      | none =>
        let vnc_port := FIXED_VNC_PORTS n
        let ws_port := FIXED_WS_PORTS n
        if !env.portFree vnc_port then
          (⟨none, some ("VNC port " ++ toString vnc_port ++ " is in use")⟩, st)
        else if !env.portFree ws_port then
          (⟨none, some ("WebSocket port " ++ toString ws_port ++ " is in use")⟩, st)
        else if !env.displayFree n then
          (⟨none, some ("Display :" ++ toString n ++ " is in use by another process")⟩, st)
        else
          let xp := st.nextPid
          let st1 := { st with nextPid := xp + 1,
                               log := st.log ++ [X11Action.popen Stage.xvfb xp] }
          if !env.survives Stage.xvfb then
            (⟨none, some ("Failed to start Xvfb: " ++ env.stderrOf Stage.xvfb)⟩, st1)
          else
            let vp := st1.nextPid
            let st2 := { st1 with nextPid := vp + 1,
                                  log := st1.log ++ [X11Action.popen Stage.x11vnc vp] }
            if !env.survives Stage.x11vnc then
              (⟨none, some ("Failed to start x11vnc: " ++ env.stderrOf Stage.x11vnc)⟩,
               { st2 with log := st2.log ++ [X11Action.term xp] })
            else
              let wp := st2.nextPid
              let st3 := { st2 with nextPid := wp + 1,
                                    log := st2.log ++ [X11Action.popen Stage.websockify wp] }
              if !env.survives Stage.websockify then
                (⟨none, some ("Failed to start websockify: " ++ env.stderrOf Stage.websockify)⟩,
                 { st3 with log := st3.log ++ [X11Action.term vp, X11Action.term xp] })
              else
                let entry : DisplayEntry :=
                  { display := ":" ++ toString n, display_num := n,
                    panel_index := get_panel_for_display n,
                    xvfb_pid := xp, vnc_pid := vp, vnc_port := vnc_port,
                    ws_pid := wp, ws_port := ws_port,
                    width := width, height := height, sessions := [] }
                (⟨some (slotInfoAt n entry), none⟩,
                 { st3 with displays := aset st3.displays n entry })

/-- `X11Manager.start_display_for_panel`. -/
def start_display_for_panel (env : XEnv) (st : X11State) (panel width height : Nat) :
    StartResult × X11State :=
  start_display env st none (some panel) width height 24

/-- The kill attempts made by `stop_display` for one pid: SIGTERM then
SIGKILL, skipped when the pid slot is empty, cut short when the process is
already gone (`ProcessLookupError` is caught per pid). -/
def killActions (env : XEnv) (pid : Nat) : List X11Action :=
  if pid = 0 then [] else
  if env.alive pid then [X11Action.term pid, X11Action.kill pid] else []

/-- `X11Manager.stop_display` (x11_manager.py): two-phase kill of the three
stage pids in reverse start order (websockify, x11vnc, Xvfb), best effort,
then delete the slot. -/
def stop_display (env : XEnv) (st : X11State) (n : Nat) :
    (Bool × Option String) × X11State :=
  match alookup st.displays n with
  | none => ((false, some "Display not found"), st)
  | some e =>
    ((true, none),
     { st with displays := adel st.displays n,
               log := st.log ++ killActions env e.ws_pid ++ killActions env e.vnc_pid ++
                      killActions env e.xvfb_pid })

/-- `X11Manager.get_display` (x11_manager.py): probe one slot; if its Xvfb
process is dead, stop (and thereby evict) the slot and return none. -/
def get_display (env : XEnv) (st : X11State) (n : Nat) : Option SlotInfo × X11State :=
  match alookup st.displays n with
  | none => (none, st)
  | some e =>
    if env.alive e.xvfb_pid then (some (slotInfoAt n e), st)
    else (none, (stop_display env st n).2)

/-- `X11Manager.list_displays` (x11_manager.py): collect the info of every
slot whose Xvfb process is alive, then stop each dead slot. -/
def list_displays (env : XEnv) (st : X11State) : List SlotInfo × X11State :=
  let result := (st.displays.filter (fun p => env.alive p.2.xvfb_pid)).map
    (fun p => slotInfoAt p.1 p.2)
  let dead := (st.displays.filter (fun p => !env.alive p.2.xvfb_pid)).map (fun p => p.1)
  (result, dead.foldl (fun s d => (stop_display env s d).2) st)

/-- `X11Manager.resize_display`: stop the tracked slot, then restart it with
the new dimensions. -/
def resize_display (env : XEnv) (st : X11State) (n width height : Nat) :
    StartResult × X11State :=
  match alookup st.displays n with
  | none => (⟨none, some "Display not found"⟩, st)
  | some _ =>
    start_display env (stop_display env st n).2 (some n) none width height 24

/-- `X11Manager.cleanup_all`: stop every tracked slot. -/
def cleanup_all (env : XEnv) (st : X11State) : X11State :=
  (st.displays.map (fun p => p.1)).foldl (fun s d => (stop_display env s d).2) st

end X11Manager

namespace Routes

open X11Manager

/-- Response of the `connect_panel` route (routes.py): HTTP-level success, the
display info, the `created` flag, and the message. -/
structure PanelResponse where
  ok : Bool
  display : Option SlotInfo
  created : Option Bool
  message : Option String
deriving DecidableEq, Repr

/-- `connect_panel` (routes.py): validate the panel index, resolve its fixed
display number, return the existing live display with `created: false`, or
create it on demand with `created: true`. -/
def connect_panel (env : XEnv) (st : X11State) (panel width height : Nat) :
    PanelResponse × X11State :=
  if panel = 0 ∨ panel = 1 ∨ panel = 2 then
    match FIXED_DISPLAYS panel with
    | some n =>
      match get_display env st n with
      | (some info, st1) =>
        (⟨true, some info, some false,
          some ("Display :" ++ toString n ++ " already running")⟩, st1)
      | (none, st1) =>
        match start_display_for_panel env st1 panel width height with
        | (⟨some info, _⟩, st2) =>
          (⟨true, some info, some true, some ("Display :" ++ toString n ++ " created")⟩, st2)
        | (⟨none, e⟩, st2) => (⟨false, none, none, e⟩, st2)
    | none => (⟨false, none, none, some "Invalid panel index. Must be 0, 1, or 2"⟩, st)
  else (⟨false, none, none, some "Invalid panel index. Must be 0, 1, or 2"⟩, st)

end Routes

namespace X11Manager

/-- The states reachable through the display manager's public operations,
starting from an empty slot table (each step may run under a different OS
environment). -/
inductive Reachable : X11State → Prop where
  | init (p : Nat) : Reachable ⟨[], p, []⟩
  | start {st : X11State} (env : XEnv) (dn pi : Option Nat) (w h d : Nat) :
      Reachable st → Reachable (start_display env st dn pi w h d).2
  | stop {st : X11State} (env : XEnv) (n : Nat) :
      Reachable st → Reachable (stop_display env st n).2
  | get {st : X11State} (env : XEnv) (n : Nat) :
      Reachable st → Reachable (get_display env st n).2
  | list {st : X11State} (env : XEnv) :
      Reachable st → Reachable (list_displays env st).2
  | resize {st : X11State} (env : XEnv) (n w h : Nat) :
      Reachable st → Reachable (resize_display env st n w h).2
  | cleanup {st : X11State} (env : XEnv) :
      Reachable st → Reachable (cleanup_all env st)
  | panel {st : X11State} (env : XEnv) (p w h : Nat) :
      Reachable st → Reachable (Routes.connect_panel env st p w h).2

end X11Manager

namespace X11Manager

/-- The table invariant of the display manager: slot keys are
duplicate-free, and every tracked slot sits at one of the three fixed
display numbers with exactly its fixed remote-frame-buffer and websocket
ports. -/
def goodEntry (n : Nat) (e : DisplayEntry) : Prop :=
  (n = 100 ∨ n = 101 ∨ n = 102) ∧
  e.vnc_port = FIXED_VNC_PORTS n ∧ e.ws_port = FIXED_WS_PORTS n

/-- `X11Inv st`: the invariant over the whole slot table. -/
def X11Inv (st : X11State) : Prop :=
  (st.displays.map Prod.fst).Nodup ∧ ∀ p ∈ st.displays, goodEntry p.1 p.2

end X11Manager

/-- An OS environment in which every dependency is installed, every port and
display is free, every stage survives its settle window, and every process
stays alive — the nominal environment for the concrete scenarios below. -/
def allOkEnv : X11Manager.XEnv :=
  { which := fun _ => true, portFree := fun _ => true, displayFree := fun _ => true,
    survives := fun _ => true, stderrOf := fun _ => "", alive := fun _ => true }

/-- The nominal environment with every required binary absent. -/
def noDepsEnv : X11Manager.XEnv := { allOkEnv with which := fun _ => false }

/-- An empty display-manager state. -/
def x11Init : X11Manager.X11State := { displays := [], nextPid := 30, log := [] }

/-- A running slot at display 100 with its fixed ports. -/
def entry100 : X11Manager.DisplayEntry :=
  { display := ":100", display_num := 100, panel_index := some 0,
    xvfb_pid := 31, vnc_pid := 32, vnc_port := 5900,
    ws_pid := 33, ws_port := 6100, width := 1280, height := 800, sessions := [] }

/-- A slot at display 101 whose Xvfb process (pid 41) has died under
`deadEnv`. -/
def entry101 : X11Manager.DisplayEntry :=
  { display := ":101", display_num := 101, panel_index := some 1,
    xvfb_pid := 41, vnc_pid := 42, vnc_port := 5901,
    ws_pid := 43, ws_port := 6101, width := 800, height := 600, sessions := [] }

/-- A display-manager state tracking the slot at display 100. -/
def x11One : X11Manager.X11State :=
  { displays := [(100, entry100)], nextPid := 34, log := [] }

/-- A display-manager state tracking a live slot (100) and a dead one (101). -/
def x11Two : X11Manager.X11State :=
  { displays := [(100, entry100), (101, entry101)], nextPid := 44, log := [] }

/-- The nominal environment in which exactly pid 41 (entry101's Xvfb) is
dead. -/
def deadEnv : X11Manager.XEnv :=
  { allOkEnv with alive := fun p => if p = 41 then false else true }

/-- Session prefix used in the concrete PTY scenarios (the default
`session_prefix` of config.py). -/
def pfx0 : List Char := ['t', 'e', 'r', 'm', '-']

/-- Short session name used in the concrete PTY scenarios. -/
def name0 : List Char := ['s']

/-- Its canonical full name. -/
def full0 : List Char := ['t', 'e', 'r', 'm', '-', 's']

/-- A live connection with one subscriber (sid 1) and pid 7. -/
def conn0 : PtyManager.PConn :=
  { master_fd := 10, pid := 7, clients := [1], reader_stopped := false }

/-- A PTY-manager state tracking exactly that connection. -/
def ptySt0 : PtyManager.PtyState :=
  { connections := [(full0, conn0)], nextId := 50, spawned := [], pending := [] }

/-- An empty PTY-manager state. -/
def ptyStEmpty : PtyManager.PtyState :=
  { connections := [], nextId := 50, spawned := [], pending := [] }

/-- A tmux environment in which the session exists. -/
def ptyEnv0 : PtyManager.PtyEnv := { sessions := [full0] }

/-- A tmux environment with no sessions at all. -/
def ptyEnvEmpty : PtyManager.PtyEnv := { sessions := [] }

/-- An environment for the signal router: the pane query returns pid 5, pid 5
has the two children 8 and 9, and every kill succeeds. -/
def sigEnv0 : TmuxManager.SigEnv :=
  { pane_pid := some 5, children := fun p => if p = 5 then [8, 9] else [],
    kill_ok := fun _ => true }

/-- The race trace for the delayed-cleanup timer: the last subscriber
releases (scheduling a grace timer), a new subscriber arrives within the
window, that subscriber releases again, and then the first timer fires. -/
def c1Trace : List PtyManager.PEvent :=
  [.release name0 1, .acquire name0 2, .release name0 2, .fire full0]

/-! ## Helper lemmas -/

theorem alookup_aset {K V : Type} [DecidableEq K] (l : List (K × V)) (k j : K) (v : V) :
    alookup (aset l k v) j = if k = j then some v else alookup l j := by
  induction l with
  | nil => simp [aset, alookup]
  | cons p t ih =>
    obtain ⟨k', v'⟩ := p
    by_cases h : k' = k
    · subst h
      by_cases h2 : k' = j <;> simp [aset, alookup, h2]
    · by_cases h2 : k' = j
      · subst h2
        simp [aset, alookup, h, Ne.symm h]
      · simp [aset, alookup, h, h2, ih]

theorem alookup_adel {K V : Type} [DecidableEq K] (l : List (K × V)) (k j : K) :
    alookup (adel l k) j = if k = j then none else alookup l j := by
  induction l with
  | nil => simp [adel, alookup]
  | cons p t ih =>
    obtain ⟨k', v'⟩ := p
    by_cases h : k' = k
    · subst h
      by_cases h2 : k' = j
      · subst h2
        simp_all [adel, alookup]
      · simp_all [adel, alookup]
    · by_cases h2 : k' = j
      · subst h2
        simp_all [adel, alookup, Ne.symm h]
      · simp_all [adel, alookup]

theorem aset_of_alookup_none {K V : Type} [DecidableEq K] {l : List (K × V)} {k : K}
    (v : V) (h : alookup l k = none) : aset l k v = l ++ [(k, v)] := by
  induction l with
  | nil => simp [aset]
  | cons p t ih =>
    obtain ⟨k', v'⟩ := p
    by_cases h2 : k' = k
    · simp [alookup, h2] at h
    · simp [alookup, h2] at h
      simp [aset, h2, ih h]

theorem alookup_eq_none_iff {K V : Type} [DecidableEq K] (l : List (K × V)) (k : K) :
    alookup l k = none ↔ k ∉ l.map Prod.fst := by
  induction l with
  | nil => simp [alookup]
  | cons p t ih =>
    obtain ⟨k', v'⟩ := p
    by_cases h : k' = k
    · simp [alookup, h]
    · simp [alookup, h, ih, Ne.symm h]

theorem alookup_mem {K V : Type} [DecidableEq K] {l : List (K × V)} {k : K} {v : V}
    (h : alookup l k = some v) : (k, v) ∈ l := by
  induction l with
  | nil => simp [alookup] at h
  | cons p t ih =>
    obtain ⟨k', v'⟩ := p
    by_cases h2 : k' = k
    · subst h2
      simp [alookup] at h
      simp [h]
    · simp [alookup, h2] at h
      simp [ih h]

theorem mem_adel {K V : Type} [DecidableEq K] {l : List (K × V)} {k : K} {p : K × V}
    (h : p ∈ adel l k) : p ∈ l := by
  simpa [adel] using (List.mem_filter.mp h).1

theorem map_fst_adel {K V : Type} [DecidableEq K] (l : List (K × V)) (k : K) :
    (adel l k).map Prod.fst = (l.map Prod.fst).filter (fun x => x ≠ k) := by
  induction l with
  | nil => simp [adel]
  | cons p t ih =>
    obtain ⟨k', v'⟩ := p
    by_cases h : k' = k <;> simp_all [adel, List.filter]

theorem isPrefixOf_append_self (pfx r : List Char) : pfx.isPrefixOf (pfx ++ r) = true := by
  induction pfx with
  | nil => simp [List.isPrefixOf]
  | cons c t ih => simp [List.isPrefixOf, ih]

theorem get_full_name_isPrefixOf (pfx name : List Char) :
    pfx.isPrefixOf (TmuxManager.get_full_name pfx name) = true := by
  unfold TmuxManager.get_full_name
  by_cases h : pfx.isPrefixOf name
  · simp [h]
  · simp [h, isPrefixOf_append_self]

theorem get_full_name_idem (pfx name : List Char) :
    TmuxManager.get_full_name pfx (TmuxManager.get_full_name pfx name) =
      TmuxManager.get_full_name pfx name := by
  unfold TmuxManager.get_full_name
  by_cases h : pfx.isPrefixOf name
  · simp [h]
  · simp [h, isPrefixOf_append_self]

namespace PtyManager

theorem stripLit_eq_some {lit l r : List Char} (h : stripLit lit l = some r) :
    l = lit ++ r := by
  unfold stripLit at h
  split at h
  · rename_i hp
    rw [List.isPrefixOf_iff_prefix] at hp
    obtain ⟨t, ht⟩ := hp
    subst ht
    simp at h
    simp [← h]
  · exact absurd h (by simp)

theorem matchTerm_length {l r : List Char} (h : matchTerm l = some r) : r.length < l.length := by
  unfold matchTerm at h
  split at h
  · rename_i heq
    have := stripLit_eq_some heq
    simp_all
  · split at h
    · rename_i heq
      have := stripLit_eq_some heq
      simp_all
      omega
    · simp at h

theorem length_dropWhile_le (p : Char → Bool) (l : List Char) :
    (l.dropWhile p).length ≤ l.length := by
  induction l with
  | nil => simp
  | cons c t ih =>
    by_cases h : p c
    · simp [List.dropWhile, h]
      omega
    · simp [List.dropWhile, h]

theorem matchSemiParamsTerm_length {l r : List Char} (h : matchSemiParamsTerm l = some r) :
    r.length < l.length := by
  unfold matchSemiParamsTerm at h
  split at h
  · rename_i r1 heq
    have h1 := stripLit_eq_some heq
    have h2 := matchTerm_length h
    have h3 := length_dropWhile_le isOrd r1
    subst h1
    simp
    omega
  · simp at h

theorem tryCode_length {lit l r : List Char} (h : tryCode lit l = some r) :
    r.length ≤ l.length := by
  unfold tryCode at h
  split at h
  · rename_i heq
    have h1 := stripLit_eq_some heq
    have h2 := matchSemiParamsTerm_length h
    subst h1
    simp
    omega
  · simp at h

theorem tryPalette_length {l r : List Char} (h : tryPalette l = some r) :
    r.length ≤ l.length := by
  unfold tryPalette at h
  split at h
  · rename_i r1 heq
    have h1 := stripLit_eq_some heq
    split at h
    · simp at h
    · have h2 := matchSemiParamsTerm_length h
      have h3 := length_dropWhile_le Char.isDigit r1
      subst h1
      simp
      omega
  · simp at h

theorem tryClipboard_length {l r : List Char} (h : tryClipboard l = some r) :
    r.length ≤ l.length := by
  unfold tryClipboard at h
  split at h
  · rename_i r1 heq
    have h1 := stripLit_eq_some heq
    split at h
    · have h2 := matchTerm_length h
      have h3 := length_dropWhile_le isOrd r1
      subst h1
      simp
      omega
    · simp at h
  · simp at h

theorem orElse_length {l : List Char} {a b : Option (List Char)}
    (ha : ∀ r, a = some r → r.length ≤ l.length)
    (hb : ∀ r, b = some r → r.length ≤ l.length) :
    ∀ r, (a <|> b) = some r → r.length ≤ l.length := by
  intro r h
  rcases a with _ | ra
  · simp at h
    exact hb r h
  · simp at h
    exact ha r (by rw [h])

theorem matchOscBody_length {l r : List Char} (h : matchOscBody l = some r) :
    r.length ≤ l.length := by
  unfold matchOscBody at h
  refine orElse_length (fun r h => tryCode_length h) ?_ r h
  refine orElse_length (fun r h => tryCode_length h) ?_
  refine orElse_length (fun r h => tryCode_length h) ?_
  refine orElse_length (fun r h => tryPalette_length h) ?_
  refine orElse_length (fun r h => tryCode_length h) ?_
  refine orElse_length (fun r h => tryCode_length h) ?_
  refine orElse_length (fun r h => tryCode_length h) ?_
  exact orElse_length (fun r h => tryCode_length h) (fun r h => tryClipboard_length h)

theorem matchOsc_length {l r : List Char} (h : matchOsc l = some r) : r.length < l.length := by
  unfold matchOsc at h
  split at h
  · rename_i heq
    have h1 := stripLit_eq_some heq
    have h2 := matchOscBody_length h
    subst h1
    simp
    omega
  · simp at h

theorem matchDcs_length {l r : List Char} (h : matchDcs l = some r) : r.length < l.length := by
  unfold matchDcs at h
  split at h
  · rename_i r1 heq
    have h1 := stripLit_eq_some heq
    have h2 := stripLit_eq_some h
    have h3 := length_dropWhile_le (fun c => !(c == '\x1b')) r1
    subst h1
    rw [h2] at h3
    simp at h3 ⊢
    omega
  · simp at h

theorem subOscAux_nil_fuel (f : Nat) : subOscAux f [] = [] := by
  cases f <;> rfl

theorem subOscAux_congr : ∀ (f f' : Nat) (l : List Char), l.length ≤ f → l.length ≤ f' →
    subOscAux f l = subOscAux f' l := by
  intro f
  induction f with
  | zero =>
    intro f' l hl _
    have : l = [] := List.length_eq_zero.mp (Nat.le_zero.mp hl)
    subst this
    rw [subOscAux_nil_fuel, subOscAux_nil_fuel]
  | succ f ih =>
    intro f' l hl hl'
    match l with
    | [] => rw [subOscAux_nil_fuel, subOscAux_nil_fuel]
    | c :: rest =>
      match f' with
      | 0 => simp at hl'
      | f' + 1 =>
        simp at hl hl'
        rcases hm : matchOsc (c :: rest) with _ | r
        · simp only [subOscAux, hm]
          rw [ih f' rest hl hl']
        · have hr := matchOsc_length hm
          simp at hr
          simp only [subOscAux, hm]
          exact ih f' r (by omega) (by omega)

theorem subOscAux_fuel (fuel : Nat) (l : List Char) (h : l.length ≤ fuel) :
    subOscAux fuel l = subOsc l :=
  subOscAux_congr fuel l.length l h (Nat.le_refl _)

theorem subOsc_nil : subOsc [] = [] := rfl

theorem subOsc_cons_some {c : Char} {rest r : List Char} (h : matchOsc (c :: rest) = some r) :
    subOsc (c :: rest) = subOsc r := by
  have hr := matchOsc_length h
  simp at hr
  have h2 : subOsc (c :: rest) = subOscAux rest.length r := by
    simp [subOsc, List.length_cons, subOscAux, h]
  rw [h2, subOscAux_fuel rest.length r (by omega)]

theorem subOsc_cons_none {c : Char} {rest : List Char} (h : matchOsc (c :: rest) = none) :
    subOsc (c :: rest) = c :: subOsc rest := by
  have h2 : subOsc (c :: rest) = c :: subOscAux rest.length rest := by
    simp [subOsc, List.length_cons, subOscAux, h]
  rw [h2]
  rfl

theorem subDcsAux_nil_fuel (f : Nat) : subDcsAux f [] = [] := by
  cases f <;> rfl

theorem subDcsAux_congr : ∀ (f f' : Nat) (l : List Char), l.length ≤ f → l.length ≤ f' →
    subDcsAux f l = subDcsAux f' l := by
  intro f
  induction f with
  | zero =>
    intro f' l hl _
    have : l = [] := List.length_eq_zero.mp (Nat.le_zero.mp hl)
    subst this
    rw [subDcsAux_nil_fuel, subDcsAux_nil_fuel]
  | succ f ih =>
    intro f' l hl hl'
    match l with
    | [] => rw [subDcsAux_nil_fuel, subDcsAux_nil_fuel]
    | c :: rest =>
      match f' with
      | 0 => simp at hl'
      | f' + 1 =>
        simp at hl hl'
        rcases hm : matchDcs (c :: rest) with _ | r
        · simp only [subDcsAux, hm]
          rw [ih f' rest hl hl']
        · have hr := matchDcs_length hm
          simp at hr
          simp only [subDcsAux, hm]
          exact ih f' r (by omega) (by omega)

theorem subDcsAux_fuel (fuel : Nat) (l : List Char) (h : l.length ≤ fuel) :
    subDcsAux fuel l = subDcs l :=
  subDcsAux_congr fuel l.length l h (Nat.le_refl _)

theorem subDcs_cons_none {c : Char} {rest : List Char} (h : matchDcs (c :: rest) = none) :
    subDcs (c :: rest) = c :: subDcs rest := by
  have h2 : subDcs (c :: rest) = c :: subDcsAux rest.length rest := by
    simp [subDcs, List.length_cons, subDcsAux, h]
  rw [h2]
  rfl

end PtyManager

namespace PtyManager

theorem stripLit_append (lit rest : List Char) : stripLit lit (lit ++ rest) = some rest := by
  induction lit with
  | nil => simp [stripLit, List.isPrefixOf]
  | cons c t ih =>
    simp_all [stripLit, List.isPrefixOf]

theorem subOsc_of_no_match {s : List Char} (h : hasOscMatch s = false) : subOsc s = s := by
  induction s with
  | nil => rfl
  | cons c t ih =>
    simp [hasOscMatch] at h
    rw [subOsc_cons_none (Option.not_isSome_iff_eq_none.mp (by simp [h.1])), ih h.2]

theorem subDcs_of_no_match {s : List Char} (h : hasDcsMatch s = false) : subDcs s = s := by
  induction s with
  | nil => rfl
  | cons c t ih =>
    simp [hasDcsMatch] at h
    rw [subDcs_cons_none (Option.not_isSome_iff_eq_none.mp (by simp [h.1])), ih h.2]

theorem matchOsc_of_ne_esc {c : Char} {t : List Char} (h : c ≠ '\x1b') :
    matchOsc (c :: t) = none := by
  have hb : (('\x1b' : Char) == c) = false := beq_eq_false_iff_ne.mpr (Ne.symm h)
  simp [matchOsc, stripLit, List.isPrefixOf, hb]

theorem matchDcs_of_ne_esc {c : Char} {t : List Char} (h : c ≠ '\x1b') :
    matchDcs (c :: t) = none := by
  have hb : (('\x1b' : Char) == c) = false := beq_eq_false_iff_ne.mpr (Ne.symm h)
  simp [matchDcs, stripLit, List.isPrefixOf, hb]

theorem hasOscMatch_false_of_no_esc {l : List Char} (h : ∀ c ∈ l, c ≠ '\x1b') :
    hasOscMatch l = false := by
  induction l with
  | nil => rfl
  | cons c t ih =>
    simp [hasOscMatch, matchOsc_of_ne_esc (h c (by simp))]
    exact ih (fun c hc => h c (by simp [hc]))

theorem hasDcsMatch_false_of_no_esc {l : List Char} (h : ∀ c ∈ l, c ≠ '\x1b') :
    hasDcsMatch l = false := by
  induction l with
  | nil => rfl
  | cons c t ih =>
    simp [hasDcsMatch, matchDcs_of_ne_esc (h c (by simp))]
    exact ih (fun c hc => h c (by simp [hc]))

theorem dropWhile_append_of_all {p : Char → Bool} {xs : List Char} (ys : List Char)
    (h : ∀ c ∈ xs, p c = true) :
    (xs ++ ys).dropWhile p = ys.dropWhile p := by
  induction xs with
  | nil => rfl
  | cons c t ih =>
    simp [List.dropWhile, h c (by simp)]
    exact ih (fun c hc => h c (by simp [hc]))

theorem matchTerm_exact (tterm post : List Char)
    (ht : tterm = ['\x07'] ∨ tterm = ['\x1b', '\\']) :
    matchTerm (tterm ++ post) = some post := by
  rcases ht with h | h <;> subst h
  · have hs : stripLit ['\x07'] ('\x07' :: post) = some post := stripLit_append ['\x07'] post
    simp [matchTerm, hs]
  · have hs : stripLit ['\x1b', '\\'] ('\x1b' :: '\\' :: post) = some post :=
      stripLit_append ['\x1b', '\\'] post
    have h0 : stripLit ['\x07'] ('\x1b' :: '\\' :: post) = none := rfl
    simp [matchTerm, h0, hs]

theorem matchSemiParamsTerm_exact (params tterm post : List Char)
    (hp : ∀ c ∈ params, isOrd c = true)
    (ht : tterm = ['\x07'] ∨ tterm = ['\x1b', '\\']) :
    matchSemiParamsTerm (';' :: (params ++ (tterm ++ post))) = some post := by
  have hs : stripLit [';'] (';' :: (params ++ (tterm ++ post))) =
      some (params ++ (tterm ++ post)) := stripLit_append [';'] _
  have hd : (params ++ (tterm ++ post)).dropWhile isOrd = tterm ++ post := by
    rw [dropWhile_append_of_all (tterm ++ post) hp]
    rcases ht with h | h <;> subst h <;> rfl
  simp [matchSemiParamsTerm, hs, hd, matchTerm_exact tterm post ht]

theorem matchOsc_colorQuery {code params tterm post : List Char}
    (hcode : code = ['1', '0'] ∨ code = ['1', '1'] ∨ code = ['1', '2'])
    (hp : ∀ c ∈ params, isOrd c = true)
    (ht : tterm = ['\x07'] ∨ tterm = ['\x1b', '\\']) :
    matchOsc ('\x1b' :: ']' :: (code ++ ';' :: (params ++ (tterm ++ post)))) = some post := by
  have hsemi := matchSemiParamsTerm_exact params tterm post hp ht
  rcases hcode with h | h | h <;> subst h
  · have hstrip : stripLit ['\x1b', ']']
        ('\x1b' :: ']' :: '1' :: '0' :: ';' :: (params ++ (tterm ++ post))) =
        some ('1' :: '0' :: ';' :: (params ++ (tterm ++ post))) :=
      stripLit_append ['\x1b', ']'] _
    have t0 : tryCode ['1', '0'] ('1' :: '0' :: ';' :: (params ++ (tterm ++ post))) =
        some post := by
      have hs : stripLit ['1', '0'] ('1' :: '0' :: ';' :: (params ++ (tterm ++ post))) =
          some (';' :: (params ++ (tterm ++ post))) := stripLit_append ['1', '0'] _
      simp [tryCode, hs, hsemi]
    simp [matchOsc, hstrip, matchOscBody, t0]
  · have hstrip : stripLit ['\x1b', ']']
        ('\x1b' :: ']' :: '1' :: '1' :: ';' :: (params ++ (tterm ++ post))) =
        some ('1' :: '1' :: ';' :: (params ++ (tterm ++ post))) :=
      stripLit_append ['\x1b', ']'] _
    have t0 : tryCode ['1', '0'] ('1' :: '1' :: ';' :: (params ++ (tterm ++ post))) =
        none := rfl
    have t1 : tryCode ['1', '1'] ('1' :: '1' :: ';' :: (params ++ (tterm ++ post))) =
        some post := by
      have hs : stripLit ['1', '1'] ('1' :: '1' :: ';' :: (params ++ (tterm ++ post))) =
          some (';' :: (params ++ (tterm ++ post))) := stripLit_append ['1', '1'] _
      simp [tryCode, hs, hsemi]
    simp [matchOsc, hstrip, matchOscBody, t0, t1]
  · have hstrip : stripLit ['\x1b', ']']
        ('\x1b' :: ']' :: '1' :: '2' :: ';' :: (params ++ (tterm ++ post))) =
        some ('1' :: '2' :: ';' :: (params ++ (tterm ++ post))) :=
      stripLit_append ['\x1b', ']'] _
    have t0 : tryCode ['1', '0'] ('1' :: '2' :: ';' :: (params ++ (tterm ++ post))) =
        none := rfl
    have t1 : tryCode ['1', '1'] ('1' :: '2' :: ';' :: (params ++ (tterm ++ post))) =
        none := rfl
    have t2 : tryCode ['1', '2'] ('1' :: '2' :: ';' :: (params ++ (tterm ++ post))) =
        some post := by
      have hs : stripLit ['1', '2'] ('1' :: '2' :: ';' :: (params ++ (tterm ++ post))) =
          some (';' :: (params ++ (tterm ++ post))) := stripLit_append ['1', '2'] _
      simp [tryCode, hs, hsemi]
    simp [matchOsc, hstrip, matchOscBody, t0, t1, t2]

theorem subOsc_embedded {pre code params tterm post : List Char}
    (hpre : ∀ c ∈ pre, c ≠ '\x1b')
    (hcode : code = ['1', '0'] ∨ code = ['1', '1'] ∨ code = ['1', '2'])
    (hp : ∀ c ∈ params, isOrd c = true)
    (ht : tterm = ['\x07'] ∨ tterm = ['\x1b', '\\'])
    (hpost : ∀ c ∈ post, c ≠ '\x1b') :
    subOsc (pre ++ ('\x1b' :: ']' :: (code ++ ';' :: (params ++ (tterm ++ post))))) =
      pre ++ post := by
  induction pre with
  | nil =>
    simp only [List.nil_append]
    rw [subOsc_cons_some (matchOsc_colorQuery hcode hp ht)]
    exact subOsc_of_no_match (hasOscMatch_false_of_no_esc hpost)
  | cons c t ih =>
    have hc : c ≠ '\x1b' := hpre c (by simp)
    rw [List.cons_append, subOsc_cons_none (matchOsc_of_ne_esc hc),
        ih (fun c hc => hpre c (by simp [hc]))]
    rfl

end PtyManager

/-! ## Claim theorems -/

/-- Claim C10: session-name canonicalization is idempotent — for every name,
`get_full_name` returns a name starting with the configured session prefix,
applying it to its own output is the identity, and the tmux-based and
direct-PTY managers implement the same function. -/
theorem c10_full_name_idempotent :
    ∀ pfx name : List Char,
      TmuxManager.get_full_name pfx name = TerminalManager.get_full_name pfx name ∧
      pfx.isPrefixOf (TmuxManager.get_full_name pfx name) = true ∧
      TmuxManager.get_full_name pfx (TmuxManager.get_full_name pfx name) =
        TmuxManager.get_full_name pfx name ∧
      TerminalManager.get_full_name pfx (TerminalManager.get_full_name pfx name) =
        TerminalManager.get_full_name pfx name := by
  intro pfx name
  refine ⟨rfl, get_full_name_isPrefixOf pfx name, get_full_name_idem pfx name, ?_⟩
  exact get_full_name_idem pfx name

/-- Claim C10 witness: the canonicalization at a concrete prefix and name. -/
theorem c10_full_name_idempotent_witness :
    TmuxManager.get_full_name pfx0 name0 = TerminalManager.get_full_name pfx0 name0 ∧
    pfx0.isPrefixOf (TmuxManager.get_full_name pfx0 name0) = true ∧
    TmuxManager.get_full_name pfx0 (TmuxManager.get_full_name pfx0 name0) =
      TmuxManager.get_full_name pfx0 name0 ∧
    TerminalManager.get_full_name pfx0 (TerminalManager.get_full_name pfx0 name0) =
      TerminalManager.get_full_name pfx0 name0 :=
  c10_full_name_idempotent pfx0 name0

/-- Claim C9: `send_signal` delivers the signal to every direct child of the
pane's foreground process and not to the foreground process itself when
children exist; with no children it delivers to the foreground process
directly; a failed pane query returns false with no delivery; the embedding
is a total function, matching the Python body's catch-all try/except. -/
theorem c9_signal_delivery :
    ∀ (env : TmuxManager.SigEnv) (sig : Nat),
      (env.pane_pid = none → TmuxManager.send_signal env sig = (false, [])) ∧
      (∀ p, env.pane_pid = some p →
        (env.children p ≠ [] →
          TmuxManager.send_signal env sig =
            (true, (env.children p).map (fun c => (c, sig))) ∧
          (p ∉ env.children p →
            ∀ q ∈ (TmuxManager.send_signal env sig).2, q.1 ≠ p)) ∧
        (env.children p = [] →
          TmuxManager.send_signal env sig =
            (if env.kill_ok p then (true, [(p, sig)]) else (false, [(p, sig)])))) := by
  intro env sig
  refine ⟨fun h => by simp [TmuxManager.send_signal, h], fun p hp => ⟨fun hc => ⟨?_, ?_⟩, fun hc => ?_⟩⟩
  · simp [TmuxManager.send_signal, hp, hc]
  · intro hnotin q hq
    simp [TmuxManager.send_signal, hp, hc] at hq
    obtain ⟨c, hcmem, hcq⟩ := hq
    intro hqp
    rw [← hcq] at hqp
    simp at hqp
    exact hnotin (hqp ▸ hcmem)
  · by_cases hk : env.kill_ok p = true <;> simp [TmuxManager.send_signal, hp, hc, hk]

/-- Claim C9 witness: a pane with pid 5 and children 8, 9 — the signal goes
to both children and never to pid 5 itself. -/
theorem c9_signal_delivery_witness :
    TmuxManager.send_signal sigEnv0 2 = (true, [(8, 2), (9, 2)]) ∧
    (∀ q ∈ (TmuxManager.send_signal sigEnv0 2).2, q.1 ≠ 5) := by
  have h := ((c9_signal_delivery sigEnv0 2).2 5 rfl).1 (by decide)
  exact ⟨h.1, h.2 (by decide)⟩

/-- Claim C3: acquiring a session that has no existing connection and does
not exist in the tmux server returns none and leaves the manager state
untouched — no connection-table entry is created and no PTY is spawned. -/
theorem c3_acquire_nonexistent :
    ∀ (env : PtyManager.PtyEnv) (pfx : List Char) (st : PtyManager.PtyState)
      (name : List Char) (sid : Nat),
      alookup st.connections (TmuxManager.get_full_name pfx name) = none →
      TmuxManager.get_full_name pfx name ∉ env.sessions →
      PtyManager.get_or_create env pfx st name sid = (none, st) := by
  intro env pfx st name sid h1 h2
  simp [PtyManager.get_or_create, h1, PtyManager.spawn_connection, h2]

/-- Claim C3 witness: acquiring a session absent from both the connection
table and the tmux server returns none and the empty state unchanged. -/
theorem c3_acquire_nonexistent_witness :
    PtyManager.get_or_create ptyEnvEmpty pfx0 ptyStEmpty name0 1 = (none, ptyStEmpty) :=
  c3_acquire_nonexistent ptyEnvEmpty pfx0 ptyStEmpty name0 1 (by decide) (by decide)

/-- Claim C8: when any required binary is absent, `start_display` returns the
error listing the missing binaries with the apt install hint, and the state —
slot table, pid counter and process log — is returned exactly unchanged, so
zero child processes are started. -/
theorem c8_dependency_missing :
    ∀ (env : X11Manager.XEnv) (st : X11Manager.X11State) (dn pi : Option Nat) (w h d : Nat),
      X11Manager.check_dependencies env ≠ [] →
      X11Manager.start_display env st dn pi w h d =
        (⟨none, some (X11Manager.missingMsg (X11Manager.check_dependencies env))⟩, st) := by
  intro env st dn pi w h d hm
  simp [X11Manager.start_display, hm]

/-- Claim C8 witness: with all three binaries missing the error names all of
them with the install hint and the state is unchanged. -/
theorem c8_dependency_missing_witness :
    X11Manager.start_display noDepsEnv x11Init (some 100) none 1280 800 24 =
      (⟨none, some (X11Manager.missingMsg ["Xvfb", "x11vnc", "websockify"])⟩, x11Init) :=
  c8_dependency_missing noDepsEnv x11Init (some 100) none 1280 800 24 (by decide)

/-- Claim C7: the escape-sequence filter removes an OSC color-query sequence
(code 10, 11 or 12, either terminator) embedded in ordinary text, returning
exactly the surrounding text; and on input without any OSC or DCS match it
is the identity. -/
theorem c7_escape_filter :
    (∀ pre code params tterm post : List Char,
      (code = ['1', '0'] ∨ code = ['1', '1'] ∨ code = ['1', '2']) →
      (∀ c ∈ pre, c ≠ '\x1b') →
      (∀ c ∈ params, PtyManager.isOrd c = true) →
      (tterm = ['\x07'] ∨ tterm = ['\x1b', '\\']) →
      (∀ c ∈ post, c ≠ '\x1b') →
      PtyManager.filter_escape_sequences
        (pre ++ ('\x1b' :: ']' :: (code ++ ';' :: (params ++ (tterm ++ post))))) =
        pre ++ post) ∧
    (∀ s : List Char, PtyManager.hasOscMatch s = false → PtyManager.hasDcsMatch s = false →
      PtyManager.filter_escape_sequences s = s) := by
  constructor
  · intro pre code params tterm post hcode hpre hp ht hpost
    unfold PtyManager.filter_escape_sequences
    rw [PtyManager.subOsc_embedded hpre hcode hp ht hpost]
    refine PtyManager.subDcs_of_no_match (PtyManager.hasDcsMatch_false_of_no_esc ?_)
    intro c hc
    rcases List.mem_append.mp hc with h | h
    · exact hpre c h
    · exact hpost c h
  · intro s h1 h2
    unfold PtyManager.filter_escape_sequences
    rw [PtyManager.subOsc_of_no_match h1]
    exact PtyManager.subDcs_of_no_match h2

/-- Claim C7 witness: the background-color query `ESC ] 11 ; x BEL` embedded
between "AB" and "CD" filters to "ABCD", and plain text filters to itself. -/
theorem c7_escape_filter_witness :
    PtyManager.filter_escape_sequences
      (['A', 'B'] ++ ('\x1b' :: ']' :: (['1', '1'] ++ ';' :: (['x'] ++ (['\x07'] ++ ['C', 'D']))))) =
      ['A', 'B'] ++ ['C', 'D'] ∧
    PtyManager.filter_escape_sequences ['h', 'i'] = ['h', 'i'] := by
  constructor
  · exact c7_escape_filter.1 ['A', 'B'] ['1', '1'] ['x'] ['\x07'] ['C', 'D']
      (by simp) (by decide) (by decide) (by simp) (by decide)
  · exact c7_escape_filter.2 ['h', 'i'] (by decide) (by decide)

/-- Claim C2: `start_display` is idempotent on a tracked slot — with
dependencies installed, a second allocate for a display number whose slot is
in the table returns that slot's stored info (display number, websocket
port, stored width and height) and the state exactly unchanged, so no
pipeline process is launched; and, end to end, connecting panel 0 (display
100) twice in a row under the nominal environment gives `created := false`
on the second call with info identical to the first and no new log entry. -/
theorem c2_allocate_idempotent :
    (∀ (env : X11Manager.XEnv) (st : X11Manager.X11State) (n : Nat)
       (e : X11Manager.DisplayEntry) (pi : Option Nat) (w h d : Nat),
      X11Manager.check_dependencies env = [] →
      (n = 100 ∨ n = 101 ∨ n = 102) →
      alookup st.displays n = some e →
      X11Manager.start_display env st (some n) pi w h d =
        (⟨some (X11Manager.slotInfoAt n e), none⟩, st)) ∧
    (Routes.connect_panel allOkEnv
        (Routes.connect_panel allOkEnv x11Init 0 1280 800).2 0 1280 800 =
      ((Routes.connect_panel allOkEnv
          (Routes.connect_panel allOkEnv x11Init 0 1280 800).2 0 1280 800).1,
        (Routes.connect_panel allOkEnv x11Init 0 1280 800).2) ∧
     (Routes.connect_panel allOkEnv x11Init 0 1280 800).1.created = some true ∧
     (Routes.connect_panel allOkEnv
        (Routes.connect_panel allOkEnv x11Init 0 1280 800).2 0 1280 800).1.created =
       some false ∧
     (Routes.connect_panel allOkEnv
        (Routes.connect_panel allOkEnv x11Init 0 1280 800).2 0 1280 800).1.display =
       (Routes.connect_panel allOkEnv x11Init 0 1280 800).1.display ∧
     (Routes.connect_panel allOkEnv
        (Routes.connect_panel allOkEnv x11Init 0 1280 800).2 0 1280 800).2.log =
       (Routes.connect_panel allOkEnv x11Init 0 1280 800).2.log) := by
  constructor
  · intro env st n e pi w h d hdeps hn hlook
    simp [X11Manager.start_display, hdeps, X11Manager.resolveDisplayNum, hn, hlook]
  · refine ⟨?_, ?_, ?_, ?_, ?_⟩ <;> rfl

/-- Claim C2 witness: a second allocate for display 100, even with different
requested dimensions, returns the stored slot info and the unchanged state. -/
theorem c2_allocate_idempotent_witness :
    X11Manager.start_display allOkEnv x11One (some 100) none 640 480 24 =
      (⟨some (X11Manager.slotInfoAt 100 entry100), none⟩, x11One) :=
  c2_allocate_idempotent.1 allOkEnv x11One 100 entry100 none 640 480 24
    (by decide) (Or.inl rfl) (by decide)

/-- Claim C4: a stage that dies inside its settle window makes
`start_display` terminate every previously started stage in reverse start
order, return an error naming the failed stage, and record no slot: an
x11vnc failure terminates Xvfb; a websockify failure terminates x11vnc then
Xvfb; an Xvfb failure has nothing to tear down.  The returned state keeps
the original slot table. -/
theorem c4_stage_failure_teardown :
    ∀ (env : X11Manager.XEnv) (st : X11Manager.X11State) (n : Nat) (pi : Option Nat)
      (w h d : Nat),
      X11Manager.check_dependencies env = [] →
      (n = 100 ∨ n = 101 ∨ n = 102) →
      alookup st.displays n = none →
      env.portFree (X11Manager.FIXED_VNC_PORTS n) = true →
      env.portFree (X11Manager.FIXED_WS_PORTS n) = true →
      env.displayFree n = true →
      ((env.survives X11Manager.Stage.xvfb = false →
        X11Manager.start_display env st (some n) pi w h d =
          (⟨none, some ("Failed to start Xvfb: " ++ env.stderrOf X11Manager.Stage.xvfb)⟩,
           { st with nextPid := st.nextPid + 1,
                     log := st.log ++ [X11Manager.X11Action.popen X11Manager.Stage.xvfb st.nextPid] })) ∧
       (env.survives X11Manager.Stage.xvfb = true →
        env.survives X11Manager.Stage.x11vnc = false →
        X11Manager.start_display env st (some n) pi w h d =
          (⟨none, some ("Failed to start x11vnc: " ++ env.stderrOf X11Manager.Stage.x11vnc)⟩,
           { st with nextPid := st.nextPid + 2,
                     log := st.log ++
                       [X11Manager.X11Action.popen X11Manager.Stage.xvfb st.nextPid,
                        X11Manager.X11Action.popen X11Manager.Stage.x11vnc (st.nextPid + 1),
                        X11Manager.X11Action.term st.nextPid] })) ∧
       (env.survives X11Manager.Stage.xvfb = true →
        env.survives X11Manager.Stage.x11vnc = true →
        env.survives X11Manager.Stage.websockify = false →
        X11Manager.start_display env st (some n) pi w h d =
          (⟨none, some ("Failed to start websockify: " ++ env.stderrOf X11Manager.Stage.websockify)⟩,
           { st with nextPid := st.nextPid + 3,
                     log := st.log ++
                       [X11Manager.X11Action.popen X11Manager.Stage.xvfb st.nextPid,
                        X11Manager.X11Action.popen X11Manager.Stage.x11vnc (st.nextPid + 1),
                        X11Manager.X11Action.popen X11Manager.Stage.websockify (st.nextPid + 2),
                        X11Manager.X11Action.term (st.nextPid + 1),
                        X11Manager.X11Action.term st.nextPid] }))) := by
  intro env st n pi w h d hdeps hn hlook hvp hwp hdf
  refine ⟨fun h1 => ?_, fun h1 h2 => ?_, fun h1 h2 h3 => ?_⟩
  · simp [X11Manager.start_display, hdeps, X11Manager.resolveDisplayNum, hn, hlook,
      hvp, hwp, hdf, h1]
  · simp [X11Manager.start_display, hdeps, X11Manager.resolveDisplayNum, hn, hlook,
      hvp, hwp, hdf, h1, h2]
  · simp [X11Manager.start_display, hdeps, X11Manager.resolveDisplayNum, hn, hlook,
      hvp, hwp, hdf, h1, h2, h3]

/-- Claim C4 witness: under an environment where x11vnc dies in its settle
window, allocating display 100 from the empty table reports the x11vnc
failure, has launched Xvfb and x11vnc, terminated Xvfb, and tracked no
slot. -/
theorem c4_stage_failure_teardown_witness :
    X11Manager.start_display
        { allOkEnv with
            survives := fun s => if s = X11Manager.Stage.x11vnc then false else true,
            stderrOf := fun _ => "boom" }
        x11Init (some 100) none 1280 800 24 =
      (⟨none, some "Failed to start x11vnc: boom"⟩,
       { x11Init with nextPid := 32,
                      log := [X11Manager.X11Action.popen X11Manager.Stage.xvfb 30,
                              X11Manager.X11Action.popen X11Manager.Stage.x11vnc 31,
                              X11Manager.X11Action.term 30] }) := by
  have h := (c4_stage_failure_teardown
      { allOkEnv with
          survives := fun s => if s = X11Manager.Stage.x11vnc then false else true,
          stderrOf := fun _ => "boom" }
      x11Init 100 none 1280 800 24 (by decide) (Or.inl rfl) (by decide)
      (by decide) (by decide) (by decide)).2.1 (by decide) (by decide)
  exact h

namespace X11Manager

theorem stop_display_displays (env : XEnv) (st : X11State) (n : Nat) :
    (stop_display env st n).2.displays = st.displays.filter (fun p => p.1 ≠ n) := by
  unfold stop_display
  rcases h : alookup st.displays n with _ | e
  · simp only
    rw [alookup_eq_none_iff] at h
    symm
    refine List.filter_eq_self.mpr ?_
    intro p hp
    simp only [decide_eq_true_eq]
    intro hpn
    exact h (hpn ▸ List.mem_map_of_mem Prod.fst hp)
  · rfl

theorem foldl_stop_displays (env : XEnv) :
    ∀ (ds : List Nat) (st : X11State),
      ((ds.foldl (fun s d => (stop_display env s d).2) st)).displays =
        ds.foldl (fun l d => l.filter (fun p => p.1 ≠ d)) st.displays := by
  intro ds
  induction ds with
  | nil => intro st; rfl
  | cons d ds ih =>
    intro st
    simp only [List.foldl_cons]
    rw [ih, stop_display_displays]

theorem foldl_filter_ne (ds : List Nat) :
    ∀ (l : List (Nat × DisplayEntry)),
      ds.foldl (fun l d => l.filter (fun p => p.1 ≠ d)) l =
        l.filter (fun p => p.1 ∉ ds) := by
  induction ds with
  | nil =>
    intro l
    simp
  | cons d ds ih =>
    intro l
    simp only [List.foldl_cons]
    rw [ih, List.filter_filter]
    refine List.filter_congr ?_
    intro p _
    by_cases h1 : p.1 = d <;> by_cases h2 : p.1 ∈ ds <;> simp [h1, h2]

theorem list_displays_evicts (env : XEnv) (st : X11State)
    (hnodup : (st.displays.map Prod.fst).Nodup) :
    (list_displays env st).2.displays =
      st.displays.filter (fun p => env.alive p.2.xvfb_pid) := by
  unfold list_displays
  rw [foldl_stop_displays, foldl_filter_ne]
  refine List.filter_congr ?_
  intro p hp
  rcases ha : env.alive p.2.xvfb_pid with _ | _
  · rw [decide_eq_false_iff_not, not_not]
    refine List.mem_map_of_mem Prod.fst ?_
    refine List.mem_filter.mpr ⟨hp, ?_⟩
    simp [ha]
  · rw [decide_eq_true_eq]
    intro hmem
    simp only [List.mem_map] at hmem
    obtain ⟨q, hq, hqp⟩ := hmem
    have hq' := List.mem_filter.mp hq
    have : q = p := List.inj_on_of_nodup_map hnodup hq'.1 hp hqp
    subst this
    simp [ha] at hq'

end X11Manager

/-- Claim C6: `get_display` never returns a dead slot — probing a slot whose
Xvfb process has died removes it from the table and returns none, while a
live slot is returned unchanged; and `list_displays` returns exactly the
info of the slots whose Xvfb process is alive, evicting every dead slot
from the table as a side effect. -/
theorem c6_probe_list_evict :
    (∀ (env : X11Manager.XEnv) (st : X11Manager.X11State) (n : Nat)
       (e : X11Manager.DisplayEntry),
      alookup st.displays n = some e →
      ((env.alive e.xvfb_pid = false →
        (X11Manager.get_display env st n).1 = none ∧
        alookup (X11Manager.get_display env st n).2.displays n = none) ∧
       (env.alive e.xvfb_pid = true →
        X11Manager.get_display env st n = (some (X11Manager.slotInfoAt n e), st)))) ∧
    (∀ (env : X11Manager.XEnv) (st : X11Manager.X11State),
      (st.displays.map Prod.fst).Nodup →
      (X11Manager.list_displays env st).1 =
        (st.displays.filter (fun p => env.alive p.2.xvfb_pid)).map
          (fun p => X11Manager.slotInfoAt p.1 p.2) ∧
      (X11Manager.list_displays env st).2.displays =
        st.displays.filter (fun p => env.alive p.2.xvfb_pid)) := by
  constructor
  · intro env st n e hlook
    constructor
    · intro hdead
      constructor
      · simp [X11Manager.get_display, hlook, hdead]
      · simp only [X11Manager.get_display, hlook, hdead, Bool.false_eq_true, if_false]
        rw [X11Manager.stop_display_displays]
        rw [show (st.displays.filter (fun p => p.1 ≠ n)) = adel st.displays n from rfl]
        simp [alookup_adel]
    · intro halive
      simp [X11Manager.get_display, hlook, halive]
  · intro env st hnodup
    exact ⟨rfl, X11Manager.list_displays_evicts env st hnodup⟩

/-- Claim C6 witness: with slot 100 live and slot 101's Xvfb dead, probing
101 returns none and evicts it, probing 100 returns its info, and listing
returns only slot 100 with the dead slot gone from the table. -/
theorem c6_probe_list_evict_witness :
    ((X11Manager.get_display deadEnv x11Two 101).1 = none ∧
     alookup (X11Manager.get_display deadEnv x11Two 101).2.displays 101 = none) ∧
    X11Manager.get_display deadEnv x11Two 100 =
      (some (X11Manager.slotInfoAt 100 entry100), x11Two) ∧
    (X11Manager.list_displays deadEnv x11Two).1 =
      [X11Manager.slotInfoAt 100 entry100] ∧
    (X11Manager.list_displays deadEnv x11Two).2.displays = [(100, entry100)] := by
  have h1 := (c6_probe_list_evict.1 deadEnv x11Two 101 entry101 (by decide)).1 (by decide)
  have h2 := (c6_probe_list_evict.1 deadEnv x11Two 100 entry100 (by decide)).2 (by decide)
  have h3 := c6_probe_list_evict.2 deadEnv x11Two (by decide)
  refine ⟨h1, h2, ?_, ?_⟩
  · rw [h3.1]
    decide
  · rw [h3.2]
    decide

namespace X11Manager

theorem resolveDisplayNum_ok {dn pi : Option Nat} {n : Nat}
    (h : resolveDisplayNum dn pi = Except.ok n) : n = 100 ∨ n = 101 ∨ n = 102 := by
  rcases dn with _ | m
  · rcases pi with _ | p
    · simp [resolveDisplayNum] at h
    · simp only [resolveDisplayNum, FIXED_DISPLAYS] at h
      split_ifs at h <;> simp_all
  · simp only [resolveDisplayNum] at h
    by_cases hv : m = 100 ∨ m = 101 ∨ m = 102
    · rw [if_pos hv] at h
      simp only [Except.ok.injEq] at h
      omega
    · rw [if_neg hv] at h
      simp at h

theorem inv_aset_fresh {st : X11State} {n : Nat} {e : DisplayEntry}
    (hlook : alookup st.displays n = none) (hinv : X11Inv st)
    (hgoodn : goodEntry n e) :
    ((aset st.displays n e).map Prod.fst).Nodup ∧
      ∀ p ∈ aset st.displays n e, goodEntry p.1 p.2 := by
  obtain ⟨hnodup, hgood⟩ := hinv
  constructor
  · rw [aset_of_alookup_none _ hlook, List.map_append]
    simp only [List.map_cons, List.map_nil]
    rw [List.nodup_append]
    refine ⟨hnodup, List.nodup_singleton _, ?_⟩
    intro a ha hb
    simp at hb
    rw [hb] at ha
    exact (alookup_eq_none_iff st.displays n).mp hlook ha
  · intro p hp
    rw [aset_of_alookup_none _ hlook] at hp
    rcases List.mem_append.mp hp with hmem | hmem
    · exact hgood p hmem
    · simp at hmem
      subst hmem
      exact hgoodn

theorem inv_start (env : XEnv) (st : X11State) (dn pi : Option Nat) (w hh d : Nat)
    (hinv : X11Inv st) : X11Inv (start_display env st dn pi w hh d).2 := by
  by_cases hdeps : check_dependencies env ≠ []
  · simpa [start_display, hdeps] using hinv
  · rcases heq : resolveDisplayNum dn pi with e | n
    · simpa [start_display, hdeps, heq] using hinv
    · rcases hlook : alookup st.displays n with _ | e
      · simp only [start_display, heq, hlook, if_neg hdeps]
        split_ifs with h1 h2 h3 h4 h5 h6
        · exact hinv
        · exact hinv
        · exact hinv
        · exact hinv
        · exact hinv
        · exact hinv
        · refine inv_aset_fresh hlook hinv ?_
          exact ⟨resolveDisplayNum_ok heq, rfl, rfl⟩
      · simpa [start_display, hdeps, heq, hlook] using hinv

theorem inv_stop (env : XEnv) (st : X11State) (n : Nat)
    (hinv : X11Inv st) : X11Inv (stop_display env st n).2 := by
  obtain ⟨h1, h2⟩ := hinv
  constructor
  · rw [stop_display_displays,
        show st.displays.filter (fun p => p.1 ≠ n) = adel st.displays n from rfl,
        map_fst_adel]
    exact h1.filter _
  · intro p hp
    rw [stop_display_displays] at hp
    exact h2 p (List.mem_filter.mp hp).1

theorem inv_foldl_stop (env : XEnv) (ds : List Nat) :
    ∀ st : X11State, X11Inv st →
      X11Inv (ds.foldl (fun s d => (stop_display env s d).2) st) := by
  induction ds with
  | nil => intro st hinv; exact hinv
  | cons d ds ih =>
    intro st hinv
    exact ih _ (inv_stop env st d hinv)

theorem inv_get (env : XEnv) (st : X11State) (n : Nat)
    (hinv : X11Inv st) : X11Inv (get_display env st n).2 := by
  unfold get_display
  split
  · exact hinv
  · split
    · exact hinv
    · exact inv_stop env st n hinv

theorem inv_list (env : XEnv) (st : X11State)
    (hinv : X11Inv st) : X11Inv (list_displays env st).2 := by
  unfold list_displays
  exact inv_foldl_stop env _ st hinv

theorem inv_resize (env : XEnv) (st : X11State) (n w hh : Nat)
    (hinv : X11Inv st) : X11Inv (resize_display env st n w hh).2 := by
  unfold resize_display
  split
  · exact hinv
  · exact inv_start env _ (some n) none w hh 24 (inv_stop env st n hinv)

theorem inv_cleanup_all (env : XEnv) (st : X11State)
    (hinv : X11Inv st) : X11Inv (cleanup_all env st) := by
  unfold cleanup_all
  exact inv_foldl_stop env _ st hinv

theorem inv_connect_panel (env : XEnv) (st : X11State) (p w hh : Nat)
    (hinv : X11Inv st) : X11Inv (Routes.connect_panel env st p w hh).2 := by
  unfold Routes.connect_panel
  split
  · split
    · rename_i n _
      split
      · rename_i info st1 heq
        have h := inv_get env st n hinv
        rw [heq] at h
        exact h
      · rename_i st1 heq
        have h1 := inv_get env st n hinv
        rw [heq] at h1
        split
        · rename_i info e' st2 heq2
          have h2 := inv_start env st1 none (some p) w hh 24 h1
          unfold start_display_for_panel at heq2
          rw [heq2] at h2
          exact h2
        · rename_i e' st2 heq2
          have h2 := inv_start env st1 none (some p) w hh 24 h1
          unfold start_display_for_panel at heq2
          rw [heq2] at h2
          exact h2
    · exact hinv
  · exact hinv

theorem reachable_inv {st : X11State} (h : Reachable st) : X11Inv st := by
  induction h with
  | init p => exact ⟨List.nodup_nil, by simp⟩
  | start env dn pi w hh d _ ih => exact inv_start env _ dn pi w hh d ih
  | stop env n _ ih => exact inv_stop env _ n ih
  | get env n _ ih => exact inv_get env _ n ih
  | list env _ ih => exact inv_list env _ ih
  | resize env n w hh _ ih => exact inv_resize env _ n w hh ih
  | cleanup env _ ih => exact inv_cleanup_all env _ ih
  | panel env p w hh _ ih => exact inv_connect_panel env _ p w hh ih

end X11Manager

/-- Claim C5: at every reachable state of the display manager each display
number, each remote-frame-buffer port and each websocket port is owned by at
most one tracked slot (pairwise distinct over the table); and `start_display`
launches a stage only after positively confirming against the OS that both
ports bind and the display lock/socket is absent — whenever the process log
grew, all three OS-level checks had passed for the resolved number. -/
theorem c5_exclusivity :
    (∀ st : X11Manager.X11State, X11Manager.Reachable st →
      st.displays.Pairwise (fun p q =>
        p.1 ≠ q.1 ∧ p.2.vnc_port ≠ q.2.vnc_port ∧ p.2.ws_port ≠ q.2.ws_port)) ∧
    (∀ (env : X11Manager.XEnv) (st : X11Manager.X11State) (dn pi : Option Nat) (w h d : Nat),
      (X11Manager.start_display env st dn pi w h d).2.log ≠ st.log →
      ∃ n, X11Manager.resolveDisplayNum dn pi = Except.ok n ∧
        env.portFree (X11Manager.FIXED_VNC_PORTS n) = true ∧
        env.portFree (X11Manager.FIXED_WS_PORTS n) = true ∧
        env.displayFree n = true) := by
  constructor
  · intro st hre
    obtain ⟨hnodup, hgood⟩ := X11Manager.reachable_inv hre
    have hpair : st.displays.Pairwise (fun p q => p.1 ≠ q.1) := List.pairwise_map.mp hnodup
    refine List.Pairwise.imp_of_mem ?_ hpair
    intro a b ha hb hne
    obtain ⟨hm1, hv1, hw1⟩ := hgood a ha
    obtain ⟨hm2, hv2, hw2⟩ := hgood b hb
    refine ⟨hne, ?_, ?_⟩
    · rw [hv1, hv2]
      rcases hm1 with h | h | h <;> rcases hm2 with h2 | h2 | h2 <;>
        simp_all [X11Manager.FIXED_VNC_PORTS]
    · rw [hw1, hw2]
      rcases hm1 with h | h | h <;> rcases hm2 with h2 | h2 | h2 <;>
        simp_all [X11Manager.FIXED_WS_PORTS]
  · intro env st dn pi w h d hlog
    by_cases hdeps : X11Manager.check_dependencies env ≠ []
    · simp [X11Manager.start_display, hdeps] at hlog
    · rcases heq : X11Manager.resolveDisplayNum dn pi with e | n
      · simp [X11Manager.start_display, hdeps, heq] at hlog
      · rcases hlook : alookup st.displays n with _ | e
        · refine ⟨n, rfl, ?_, ?_, ?_⟩ <;> by_contra hc <;>
          · rw [Bool.not_eq_true] at hc
            simp [X11Manager.start_display, hdeps, heq, hlook, hc] at hlog
            try (split_ifs at hlog <;> simp_all)
        · simp [X11Manager.start_display, hdeps, heq, hlook] at hlog

/-- Claim C5 witness: the state after one successful allocation of display
100 is reachable and pairwise-exclusive, and a call that grew the log under
the nominal environment indeed had all three checks pass. -/
theorem c5_exclusivity_witness :
    (X11Manager.start_display allOkEnv x11Init (some 100) none 1280 800 24).2.displays.Pairwise
      (fun p q => p.1 ≠ q.1 ∧ p.2.vnc_port ≠ q.2.vnc_port ∧ p.2.ws_port ≠ q.2.ws_port) ∧
    (∃ n, X11Manager.resolveDisplayNum (some 100) none = Except.ok n ∧
      allOkEnv.portFree (X11Manager.FIXED_VNC_PORTS n) = true ∧
      allOkEnv.portFree (X11Manager.FIXED_WS_PORTS n) = true ∧
      allOkEnv.displayFree n = true) := by
  constructor
  · exact c5_exclusivity.1 _
      (X11Manager.Reachable.start allOkEnv (some 100) none 1280 800 24
        (X11Manager.Reachable.init 30))
  · exact c5_exclusivity.2 allOkEnv x11Init (some 100) none 1280 800 24 (by decide)

namespace PtyManager

theorem fire_removes {pfx : List Char} {st : PtyState} {full : List Char} {conn : PConn}
    (hcanon : TmuxManager.get_full_name pfx full = full)
    (hpend : full ∈ st.pending) (hlook : alookup st.connections full = some conn)
    (hcl : conn.clients = []) :
    alookup (fire_delayed_cleanup pfx st full).connections full = none := by
  simp [fire_delayed_cleanup, hpend, hlook, hcl, cleanup, hcanon, alookup_adel]

theorem fire_keeps {pfx : List Char} {st : PtyState} {full : List Char} {conn : PConn}
    (hpend : full ∈ st.pending) (hlook : alookup st.connections full = some conn)
    (hcl : conn.clients ≠ []) :
    (fire_delayed_cleanup pfx st full).connections = st.connections := by
  simp [fire_delayed_cleanup, hpend, hlook, hcl]

end PtyManager

/-- Claim C1 (amended): when a pending grace timer fires, the connection is
torn down exactly when the subscriber set is empty at that moment — a
subscriber who arrived within the window and is still subscribed blocks the
teardown, and a resubscribe within the window reuses the same connection
record, in particular the same underlying process id; the pending timer
itself is never cancelled (see the counterexample for the trace this
forces out of the claim as originally stated). -/
theorem c1_grace_window_amended :
    (∀ (pfx : List Char) (st : PtyManager.PtyState) (full : List Char)
       (conn : PtyManager.PConn),
      TmuxManager.get_full_name pfx full = full →
      full ∈ st.pending →
      alookup st.connections full = some conn →
      ((conn.clients = [] →
        alookup (PtyManager.fire_delayed_cleanup pfx st full).connections full = none) ∧
       (conn.clients ≠ [] →
        (PtyManager.fire_delayed_cleanup pfx st full).connections = st.connections))) ∧
    (∀ (env : PtyManager.PtyEnv) (pfx : List Char) (st : PtyManager.PtyState)
       (name : List Char) (sid sid2 : Nat) (conn : PtyManager.PConn),
      alookup st.connections (TmuxManager.get_full_name pfx name) = some conn →
      conn.clients = [sid] →
      conn.reader_stopped = false →
      (alookup (PtyManager.fire_delayed_cleanup pfx
          (PtyManager.remove_client pfx st name sid)
          (TmuxManager.get_full_name pfx name)).connections
          (TmuxManager.get_full_name pfx name) = none) ∧
      ((PtyManager.get_or_create env pfx
          (PtyManager.remove_client pfx st name sid) name sid2).1 =
        some { conn with clients := [sid2] }) ∧
      (alookup (PtyManager.fire_delayed_cleanup pfx
          (PtyManager.get_or_create env pfx
            (PtyManager.remove_client pfx st name sid) name sid2).2
          (TmuxManager.get_full_name pfx name)).connections
          (TmuxManager.get_full_name pfx name) =
        some { conn with clients := [sid2] })) := by
  constructor
  · intro pfx st full conn hcanon hpend hlook
    exact ⟨fun hcl => PtyManager.fire_removes hcanon hpend hlook hcl,
           fun hcl => PtyManager.fire_keeps hpend hlook hcl⟩
  · intro env pfx st name sid sid2 conn hlook hcl hrs
    have hidem := get_full_name_idem pfx name
    have hrc : PtyManager.remove_client pfx st name sid =
        { st with
            connections := aset st.connections (TmuxManager.get_full_name pfx name)
              { conn with clients := [] },
            pending := st.pending ++ [TmuxManager.get_full_name pfx name] } := by
      simp [PtyManager.remove_client, hlook, hcl]
    have hpend1 : TmuxManager.get_full_name pfx name ∈
        (PtyManager.remove_client pfx st name sid).pending := by
      rw [hrc]
      simp
    have hlook1 : alookup (PtyManager.remove_client pfx st name sid).connections
        (TmuxManager.get_full_name pfx name) = some { conn with clients := [] } := by
      rw [hrc]
      simp [alookup_aset]
    have hgoc : PtyManager.get_or_create env pfx
        (PtyManager.remove_client pfx st name sid) name sid2 =
        (some { conn with clients := [sid2] },
         { PtyManager.remove_client pfx st name sid with
             connections := aset (PtyManager.remove_client pfx st name sid).connections
               (TmuxManager.get_full_name pfx name) { conn with clients := [sid2] } }) := by
      simp [PtyManager.get_or_create, hlook1, hrs, PtyManager.addClient]
    refine ⟨PtyManager.fire_removes hidem hpend1 hlook1 rfl, ?_, ?_⟩
    · rw [hgoc]
    · have hpend2 : TmuxManager.get_full_name pfx name ∈
          (PtyManager.get_or_create env pfx
            (PtyManager.remove_client pfx st name sid) name sid2).2.pending := by
        rw [hgoc]
        exact hpend1
      have hlook2 : alookup (PtyManager.get_or_create env pfx
          (PtyManager.remove_client pfx st name sid) name sid2).2.connections
          (TmuxManager.get_full_name pfx name) = some { conn with clients := [sid2] } := by
        rw [hgoc]
        simp [alookup_aset]
      rw [PtyManager.fire_keeps hpend2 hlook2 (by simp)]
      exact hlook2

/-- Claim C1 (amended) witness: the single-subscriber connection (pid 7)
whose client releases; firing the timer with no resubscribe removes it,
while a resubscribe (sid 2) within the window survives the firing with the
same pid. -/
theorem c1_grace_window_amended_witness :
    alookup (PtyManager.fire_delayed_cleanup pfx0
        (PtyManager.remove_client pfx0 ptySt0 name0 1) full0).connections full0 = none ∧
    (PtyManager.get_or_create ptyEnv0 pfx0
        (PtyManager.remove_client pfx0 ptySt0 name0 1) name0 2).1 =
      some { conn0 with clients := [2] } ∧
    alookup (PtyManager.fire_delayed_cleanup pfx0
        (PtyManager.get_or_create ptyEnv0 pfx0
          (PtyManager.remove_client pfx0 ptySt0 name0 1) name0 2).2
        full0).connections full0 = some { conn0 with clients := [2] } :=
  c1_grace_window_amended.2 ptyEnv0 pfx0 ptySt0 name0 1 2 conn0
    (by decide) (by decide) (by decide)

/-- Claim C1 counterexample: in the trace where the last subscriber releases,
a new subscriber arrives within the grace window, releases again, and then
the first timer fires, the connection is torn down even though a new
subscriber did arrive within the window — refuting "torn down if and only
if no new subscriber arrives within the grace window" as stated; nothing
cancels the pending timer, it merely rechecks emptiness when it fires. -/
theorem c1_grace_iff_counterexample :
    PtyManager.PEvent.acquire name0 2 ∈ c1Trace ∧
    alookup (PtyManager.prun ptyEnv0 pfx0 ptySt0 c1Trace).connections full0 = none := by
  constructor
  · decide
  · decide
